import Mathlib

/-!
Verification of the trial_match pipeline (Supabase edge functions).

The four stages modelled here are, following the repository source:
* `parse-ccd/index.ts`       (DocumentParser)
* `extract-facts/index.ts`   (FactExtractor, including de-identification)
* the search-trials function (TrialSearcher, `src/unnamed/part_000`)
* `rank-summarize-trials/index.ts` (TrialRanker)

JSON values are modelled by the inductive type `Json` below; JavaScript
numbers are modelled by `Int` (all numbers relevant to the claims are
integral).  Network calls (the LLM service, the trials registry) and the
runtime JSON parser are passed to handler models as explicit oracle
arguments, so every definition stays executable.
-/

namespace TrialMatch

/-- A JSON value: the data JavaScript passes between the pipeline stages.
Objects are ordered association lists, matching JS object key order. -/
inductive Json where
  | null : Json
  | bool (b : Bool) : Json
  | num (n : Int) : Json
  | str (s : String) : Json
  | arr (elems : List Json) : Json
  | obj (fields : List (String × Json)) : Json
  deriving Repr

/-- JavaScript truthiness of a JSON value: null, false, 0 and the empty
string are falsy; objects and arrays are always truthy. -/
def Json.truthy : Json → Bool
  | .null => false
  | .bool b => b
  | .num n => n != 0
  | .str s => s != ""
  | .arr _ => true
  | .obj _ => true

/-- Reading `o[k]` on an object: the value of the first field named `k`,
or `none` when the property is absent (JS `undefined`). -/
def lookupField (fields : List (String × Json)) (k : String) : Option Json :=
  match fields with
  | [] => none
  | (k', v) :: rest => if k' = k then some v else lookupField rest k

/-- Writing `o[k] = v` on an object: replaces the first field named `k`
in place, or appends the field when the key is absent (JS property
creation order). -/
def setField (fields : List (String × Json)) (k : String) (v : Json) :
    List (String × Json) :=
  match fields with
  | [] => [(k, v)]
  | (k', v') :: rest =>
      if k' = k then (k, v) :: rest else (k', v') :: setField rest k v

theorem lookupField_setField_self (fields : List (String × Json)) (k : String)
    (v : Json) : lookupField (setField fields k v) k = some v := by
  induction fields with
  | nil => simp [setField, lookupField]
  | cons kv rest ih =>
    obtain ⟨k', v'⟩ := kv
    by_cases h : k' = k
    · simp [setField, lookupField, h]
    · simp [setField, lookupField, h, ih]

theorem lookupField_setField_ne (fields : List (String × Json)) (k k' : String)
    (v : Json) (h : k' ≠ k) :
    lookupField (setField fields k v) k' = lookupField fields k' := by
  have hkk : ¬ k = k' := fun hk => h hk.symm
  induction fields with
  | nil => simp [setField, lookupField, hkk]
  | cons kv rest ih =>
    obtain ⟨k₀, v₀⟩ := kv
    by_cases h0 : k₀ = k
    · subst h0
      simp [setField, lookupField, hkk]
    · by_cases h1 : k₀ = k'
      · simp [setField, lookupField, h0, h1, h]
      · simp [setField, lookupField, h0, h1, ih]

/-! ### De-identification (extract-facts/index.ts, lines 67-116) -/

/-- The fixed deny-list `IDENTIFYING_KEYS` of the FactExtractor, verbatim
from the source. -/
def IDENTIFYING_KEYS : List String :=
  [ "name", "firstName", "lastName", "patientName", "participantName",
    "mrn", "medicalRecordNumber", "identifier", "id",
    "dob", "birthDate", "dateOfBirth",
    "address", "streetAddress", "city", "county", "postalCode",
    "phone", "telephone", "email",
    "ssn", "socialSecurityNumber",
    "healthPlanBeneficiaryNumber", "accountNumber", "certificateLicenseNumber",
    "vehicleIdentifier", "deviceIdentifier",
    "url", "ipAddress",
    "biometricIdentifier", "fingerprint", "voiceprint",
    "photo", "image" ]

/-- Models `String.prototype.toLowerCase` on the ASCII strings used as
object keys: lowercase every character. -/
def jsToLower (s : String) : String := ⟨s.data.map Char.toLower⟩

/-- The source check `IDENTIFYING_KEYS.has(key.toLowerCase())`. -/
def isDeniedKey (k : String) : Bool := IDENTIFYING_KEYS.contains (jsToLower k)

mutual

/-- The recursive scrub `deIdentifyDataRecursive` of extract-facts:
arrays are mapped element-wise, objects drop every key whose lowercase
form is in the deny-list and recurse on the remaining values, and
primitives are returned unchanged. -/
def deIdentifyDataRecursive : Json → Json
  | .arr elems => .arr (deIdList elems)
  | .obj fields => .obj (deIdFields fields)
  | j => j

/-- Element-wise recursion of `data.map(deIdentifyDataRecursive)`. -/
def deIdList : List Json → List Json
  | [] => []
  | x :: xs => deIdentifyDataRecursive x :: deIdList xs

/-- The `for (const key in data)` loop building `cleanObject`: denied
keys are skipped, the rest recurse. -/
def deIdFields : List (String × Json) → List (String × Json)
  | [] => []
  | (k, v) :: fs =>
      if isDeniedKey k then deIdFields fs
      else (k, deIdentifyDataRecursive v) :: deIdFields fs

end

/-- The wrapper `deIdentifyData` first deep-copies its input via a JSON
round trip and then runs the recursive scrub.  On the pure value model
the round trip is the identity, so the wrapper reduces to the recursion.
(The heap model below treats the copy explicitly.) -/
def deIdentifyData (inputData : Json) : Json :=
  deIdentifyDataRecursive inputData

mutual

/-- A JSON value is free of denied keys when no object at any nesting
depth has a key whose lowercase form is in the deny-list. -/
def denyFree : Json → Bool
  | .arr elems => denyFreeList elems
  | .obj fields => denyFreeFields fields
  | _ => true

def denyFreeList : List Json → Bool
  | [] => true
  | x :: xs => denyFree x && denyFreeList xs

def denyFreeFields : List (String × Json) → Bool
  | [] => true
  | (k, v) :: fs => !isDeniedKey k && denyFree v && denyFreeFields fs

end

/-- Structural induction for `Json` with element-wise hypotheses for
arrays and objects. -/
theorem Json.recurse_ind (P : Json → Prop)
    (hnull : P .null) (hbool : ∀ b, P (.bool b)) (hnum : ∀ n, P (.num n))
    (hstr : ∀ s, P (.str s))
    (harr : ∀ elems, (∀ x ∈ elems, P x) → P (.arr elems))
    (hobj : ∀ fields, (∀ kv ∈ fields, P kv.2) → P (.obj fields)) :
    ∀ j, P j
  | .null => hnull
  | .bool b => hbool b
  | .num n => hnum n
  | .str s => hstr s
  | .arr elems => harr elems (fun x _ =>
      Json.recurse_ind P hnull hbool hnum hstr harr hobj x)
  | .obj fields => hobj fields (fun kv _ =>
      Json.recurse_ind P hnull hbool hnum hstr harr hobj kv.2)
decreasing_by
  · have h1 := List.sizeOf_lt_of_mem ‹x ∈ elems›
    simp only [Json.arr.sizeOf_spec]
    omega
  · have h1 := List.sizeOf_lt_of_mem ‹kv ∈ fields›
    have h2 : sizeOf kv.2 < sizeOf kv := by
      obtain ⟨a, b⟩ := kv
      simp
    simp only [Json.obj.sizeOf_spec]
    omega

theorem deIdList_eq_map (xs : List Json) :
    deIdList xs = xs.map deIdentifyDataRecursive := by
  induction xs with
  | nil => simp [deIdList]
  | cons x xs ih => simp [deIdList, ih]

theorem deIdFields_eq_filterMap (fs : List (String × Json)) :
    deIdFields fs = fs.filterMap
      (fun kv => if isDeniedKey kv.1 then none
                 else some (kv.1, deIdentifyDataRecursive kv.2)) := by
  induction fs with
  | nil => simp [deIdFields]
  | cons kv fs ih =>
    obtain ⟨k, v⟩ := kv
    by_cases h : isDeniedKey k
    · simp [deIdFields, h, ih]
    · simp [deIdFields, h, ih]

theorem denyFreeList_eq_all (xs : List Json) :
    denyFreeList xs = xs.all denyFree := by
  induction xs with
  | nil => simp [denyFreeList]
  | cons x xs ih => simp [denyFreeList, ih]

theorem denyFreeFields_eq_all (fs : List (String × Json)) :
    denyFreeFields fs = fs.all (fun kv => !isDeniedKey kv.1 && denyFree kv.2) := by
  induction fs with
  | nil => simp [denyFreeFields]
  | cons kv fs ih =>
    obtain ⟨k, v⟩ := kv
    simp [denyFreeFields, ih]

/-- The scrubbed output never contains a denied key, at any depth. -/
theorem denyFree_deIdentify (j : Json) :
    denyFree (deIdentifyDataRecursive j) = true := by
  induction j using Json.recurse_ind with
  | hnull => simp [deIdentifyDataRecursive, denyFree]
  | hbool b => simp [deIdentifyDataRecursive, denyFree]
  | hnum n => simp [deIdentifyDataRecursive, denyFree]
  | hstr s => simp [deIdentifyDataRecursive, denyFree]
  | harr elems ih =>
    simp only [deIdentifyDataRecursive, denyFree, deIdList_eq_map,
      denyFreeList_eq_all, List.all_eq_true, List.mem_map]
    rintro x ⟨y, hy, rfl⟩
    exact ih y hy
  | hobj fields ih =>
    simp only [deIdentifyDataRecursive, denyFree, deIdFields_eq_filterMap,
      denyFreeFields_eq_all, List.all_eq_true, List.mem_filterMap]
    rintro kv ⟨⟨k, v⟩, hkv, hsome⟩
    by_cases hd : isDeniedKey k = true
    · simp [hd] at hsome
    · rw [if_neg hd] at hsome
      obtain rfl := Option.some.inj hsome
      rw [Bool.and_eq_true, Bool.not_eq_true']
      exact ⟨by simpa using hd, ih ⟨k, v⟩ hkv⟩

theorem deIdentify_idempotent (j : Json) :
    deIdentifyDataRecursive (deIdentifyDataRecursive j)
      = deIdentifyDataRecursive j := by
  induction j using Json.recurse_ind with
  | hnull => simp [deIdentifyDataRecursive]
  | hbool b => simp [deIdentifyDataRecursive]
  | hnum n => simp [deIdentifyDataRecursive]
  | hstr s => simp [deIdentifyDataRecursive]
  | harr elems ih =>
    simp only [deIdentifyDataRecursive, deIdList_eq_map, List.map_map]
    congr 1
    apply List.map_congr_left
    intro x hx
    exact ih x hx
  | hobj fields ih =>
    simp only [deIdentifyDataRecursive, deIdFields_eq_filterMap,
      List.filterMap_filterMap]
    congr 1
    apply List.filterMap_congr
    intro kv hkv
    by_cases hd : isDeniedKey kv.1
    · simp [hd]
    · simp [hd, ih kv hkv]

/-! ### Heap model of de-identification (frame property)

JavaScript objects live on a heap and are passed by reference, so the
claim that `deIdentifyData` never mutates its caller's object is a
statement about the store.  We model the store explicitly: a heap is a
list of cells (array or object records), values are primitives or cell
references, and allocation appends a cell.  All functions take a fuel
argument because heap traversal is not structurally recursive; the
JavaScript functions terminate on the acyclic data produced by
`JSON.parse`, which any sufficiently large fuel covers. -/

/-- A JavaScript runtime value: a primitive, or a reference into the heap. -/
inductive HVal where
  | null : HVal
  | bool (b : Bool) : HVal
  | num (n : Int) : HVal
  | str (s : String) : HVal
  | ref (addr : Nat) : HVal
  deriving Repr, DecidableEq

/-- A heap cell: an array of values or an object record. -/
inductive Cell where
  | arrCell (elems : List HVal) : Cell
  | objCell (fields : List (String × HVal)) : Cell
  deriving Repr, DecidableEq

/-- The heap: cells addressed by their list index. -/
abbrev Heap := List Cell

/-- Allocating a fresh cell appends it and returns its address. -/
def allocCell (h : Heap) (c : Cell) : Heap × Nat := (h ++ [c], h.length)

/-- Heap-threading traversal of a list of values, as performed by
`data.map(deIdentifyDataRecursive)` in a mutable world: elements are
processed left to right, each step receiving the heap left by the
previous one. -/
def mapHeap (f : Heap → HVal → Option (Heap × HVal)) :
    Heap → List HVal → Option (Heap × List HVal)
  | h, [] => some (h, [])
  | h, x :: xs =>
      match f h x with
      | none => none
      | some (h1, y) =>
          match mapHeap f h1 xs with
          | none => none
          | some (h2, ys) => some (h2, y :: ys)

/-- The `for (const key in data)` loop of `deIdentifyDataRecursive` in
the heap model: denied keys are skipped, the rest are processed and
collected for the fresh `cleanObject` cell. -/
def deIdFieldsHeap (f : Heap → HVal → Option (Heap × HVal)) :
    Heap → List (String × HVal) → Option (Heap × List (String × HVal))
  | h, [] => some (h, [])
  | h, (k, v) :: fs =>
      if isDeniedKey k then deIdFieldsHeap f h fs
      else
        match f h v with
        | none => none
        | some (h1, w) =>
            match deIdFieldsHeap f h1 fs with
            | none => none
            | some (h2, ws) => some (h2, (k, w) :: ws)

/-- Field traversal without the deny filter, used by the deep copy. -/
def copyFieldsHeap (f : Heap → HVal → Option (Heap × HVal)) :
    Heap → List (String × HVal) → Option (Heap × List (String × HVal))
  | h, [] => some (h, [])
  | h, (k, v) :: fs =>
      match f h v with
      | none => none
      | some (h1, w) =>
          match copyFieldsHeap f h1 fs with
          | none => none
          | some (h2, ws) => some (h2, (k, w) :: ws)

/-- `deIdentifyDataRecursive` on the heap: primitives are returned as
is; a reference is dereferenced, its children are processed, and the
result is collected into a freshly allocated cell (`cleanObject` and
the array produced by `map` are new objects).  No existing cell is ever
written. -/
def deIdRecHeap : Nat → Heap → HVal → Option (Heap × HVal)
  | 0, _, _ => none
  | fuel + 1, h, v =>
      match v with
      | .ref a =>
          match h.get? a with
          | some (.arrCell elems) =>
              match mapHeap (deIdRecHeap fuel) h elems with
              | none => none
              | some (h1, ys) =>
                  let p := allocCell h1 (.arrCell ys)
                  some (p.1, .ref p.2)
          | some (.objCell fields) =>
              match deIdFieldsHeap (deIdRecHeap fuel) h fields with
              | none => none
              | some (h1, gs) =>
                  let p := allocCell h1 (.objCell gs)
                  some (p.1, .ref p.2)
          | none => none
      | prim => some (h, prim)

/-- The deep copy `JSON.parse(JSON.stringify(inputData))` on the heap:
a structurally identical tree of fresh cells. -/
def deepCopyHeap : Nat → Heap → HVal → Option (Heap × HVal)
  | 0, _, _ => none
  | fuel + 1, h, v =>
      match v with
      | .ref a =>
          match h.get? a with
          | some (.arrCell elems) =>
              match mapHeap (deepCopyHeap fuel) h elems with
              | none => none
              | some (h1, ys) =>
                  let p := allocCell h1 (.arrCell ys)
                  some (p.1, .ref p.2)
          | some (.objCell fields) =>
              match copyFieldsHeap (deepCopyHeap fuel) h fields with
              | none => none
              | some (h1, gs) =>
                  let p := allocCell h1 (.objCell gs)
                  some (p.1, .ref p.2)
          | none => none
      | prim => some (h, prim)

/-- The wrapper `deIdentifyData` (extract-facts lines 109-116): deep
copy first, then the recursive scrub on the copy. -/
def deIdentifyDataHeap (fuel : Nat) (h : Heap) (inputData : HVal) :
    Option (Heap × HVal) :=
  match deepCopyHeap fuel h inputData with
  | none => none
  | some (h1, c) => deIdRecHeap fuel h1 c

/-- The final heap extends the initial one: it is at least as long and
every pre-existing cell is unchanged.  This is the frame property: the
structure reachable from any old reference, in particular the caller's
input, is bit-for-bit the same before and after. -/
def heapGrows (h h' : Heap) : Prop :=
  h.length ≤ h'.length ∧ ∀ a, a < h.length → h'.get? a = h.get? a

theorem heapGrows_refl (h : Heap) : heapGrows h h :=
  ⟨le_refl _, fun _ _ => rfl⟩

theorem heapGrows_trans {h1 h2 h3 : Heap} (g1 : heapGrows h1 h2)
    (g2 : heapGrows h2 h3) : heapGrows h1 h3 :=
  ⟨le_trans g1.1 g2.1, fun a ha =>
    (g2.2 a (lt_of_lt_of_le ha g1.1)).trans (g1.2 a ha)⟩

theorem heapGrows_alloc (h : Heap) (c : Cell) : heapGrows h (h ++ [c]) := by
  refine ⟨by simp, fun a ha => ?_⟩
  rw [List.get?_append ha]

theorem mapHeap_grows (f : Heap → HVal → Option (Heap × HVal))
    (hf : ∀ h v h' v', f h v = some (h', v') → heapGrows h h')
    (xs : List HVal) :
    ∀ h h' ys, mapHeap f h xs = some (h', ys) → heapGrows h h' := by
  induction xs with
  | nil =>
    intro h h' ys hrun
    simp only [mapHeap] at hrun
    obtain ⟨rfl, rfl⟩ := Prod.mk.inj (Option.some.inj hrun)
    exact heapGrows_refl h
  | cons x xs ih =>
    intro h h' ys hrun
    simp only [mapHeap] at hrun
    cases hx : f h x with
    | none => rw [hx] at hrun; cases hrun
    | some p1 =>
      obtain ⟨h1, y⟩ := p1
      rw [hx] at hrun
      simp only at hrun
      cases hxs : mapHeap f h1 xs with
      | none => rw [hxs] at hrun; cases hrun
      | some p2 =>
        obtain ⟨h2, ys2⟩ := p2
        rw [hxs] at hrun
        simp only at hrun
        obtain ⟨rfl, rfl⟩ := Prod.mk.inj (Option.some.inj hrun)
        exact heapGrows_trans (hf h x h1 y hx) (ih h1 _ _ hxs)

theorem deIdFieldsHeap_grows (f : Heap → HVal → Option (Heap × HVal))
    (hf : ∀ h v h' v', f h v = some (h', v') → heapGrows h h')
    (fs : List (String × HVal)) :
    ∀ h h' gs, deIdFieldsHeap f h fs = some (h', gs) → heapGrows h h' := by
  induction fs with
  | nil =>
    intro h h' gs hrun
    simp only [deIdFieldsHeap] at hrun
    obtain ⟨rfl, rfl⟩ := Prod.mk.inj (Option.some.inj hrun)
    exact heapGrows_refl h
  | cons kv fs ih =>
    intro h h' gs hrun
    obtain ⟨k, v⟩ := kv
    simp only [deIdFieldsHeap] at hrun
    by_cases hd : isDeniedKey k = true
    · rw [if_pos hd] at hrun
      exact ih h h' gs hrun
    · rw [if_neg hd] at hrun
      cases hv : f h v with
      | none => rw [hv] at hrun; cases hrun
      | some p1 =>
        obtain ⟨h1, w⟩ := p1
        rw [hv] at hrun
        simp only at hrun
        cases hfs : deIdFieldsHeap f h1 fs with
        | none => rw [hfs] at hrun; cases hrun
        | some p2 =>
          obtain ⟨h2, ws⟩ := p2
          rw [hfs] at hrun
          simp only at hrun
          obtain ⟨rfl, rfl⟩ := Prod.mk.inj (Option.some.inj hrun)
          exact heapGrows_trans (hf h v h1 w hv) (ih h1 _ _ hfs)

theorem copyFieldsHeap_grows (f : Heap → HVal → Option (Heap × HVal))
    (hf : ∀ h v h' v', f h v = some (h', v') → heapGrows h h')
    (fs : List (String × HVal)) :
    ∀ h h' gs, copyFieldsHeap f h fs = some (h', gs) → heapGrows h h' := by
  induction fs with
  | nil =>
    intro h h' gs hrun
    simp only [copyFieldsHeap] at hrun
    obtain ⟨rfl, rfl⟩ := Prod.mk.inj (Option.some.inj hrun)
    exact heapGrows_refl h
  | cons kv fs ih =>
    intro h h' gs hrun
    obtain ⟨k, v⟩ := kv
    simp only [copyFieldsHeap] at hrun
    cases hv : f h v with
    | none => rw [hv] at hrun; cases hrun
    | some p1 =>
      obtain ⟨h1, w⟩ := p1
      rw [hv] at hrun
      simp only at hrun
      cases hfs : copyFieldsHeap f h1 fs with
      | none => rw [hfs] at hrun; cases hrun
      | some p2 =>
        obtain ⟨h2, ws⟩ := p2
        rw [hfs] at hrun
        simp only at hrun
        obtain ⟨rfl, rfl⟩ := Prod.mk.inj (Option.some.inj hrun)
        exact heapGrows_trans (hf h v h1 w hv) (ih h1 _ _ hfs)

theorem deIdRecHeap_grows :
    ∀ fuel h v h' v', deIdRecHeap fuel h v = some (h', v') → heapGrows h h' := by
  intro fuel
  induction fuel with
  | zero => intro h v h' v' hrun; cases hrun
  | succ fuel ih =>
    intro h v h' v' hrun
    match v with
    | .null | .bool _ | .num _ | .str _ =>
      simp only [deIdRecHeap] at hrun
      obtain ⟨rfl, rfl⟩ := Prod.mk.inj (Option.some.inj hrun)
      exact heapGrows_refl h
    | .ref a =>
      simp only [deIdRecHeap] at hrun
      cases hc : h.get? a with
      | none => rw [hc] at hrun; cases hrun
      | some c =>
        rw [hc] at hrun
        cases c with
        | arrCell elems =>
          simp only at hrun
          cases hm : mapHeap (deIdRecHeap fuel) h elems with
          | none => rw [hm] at hrun; cases hrun
          | some p1 =>
            obtain ⟨h1, ys⟩ := p1
            rw [hm] at hrun
            simp only at hrun
            obtain ⟨rfl, rfl⟩ := Prod.mk.inj (Option.some.inj hrun)
            exact heapGrows_trans (mapHeap_grows _ ih elems h h1 ys hm)
              (heapGrows_alloc h1 _)
        | objCell fields =>
          simp only at hrun
          cases hm : deIdFieldsHeap (deIdRecHeap fuel) h fields with
          | none => rw [hm] at hrun; cases hrun
          | some p1 =>
            obtain ⟨h1, gs⟩ := p1
            rw [hm] at hrun
            simp only at hrun
            obtain ⟨rfl, rfl⟩ := Prod.mk.inj (Option.some.inj hrun)
            exact heapGrows_trans (deIdFieldsHeap_grows _ ih fields h h1 gs hm)
              (heapGrows_alloc h1 _)

theorem deepCopyHeap_grows :
    ∀ fuel h v h' v', deepCopyHeap fuel h v = some (h', v') → heapGrows h h' := by
  intro fuel
  induction fuel with
  | zero => intro h v h' v' hrun; cases hrun
  | succ fuel ih =>
    intro h v h' v' hrun
    match v with
    | .null | .bool _ | .num _ | .str _ =>
      simp only [deepCopyHeap] at hrun
      obtain ⟨rfl, rfl⟩ := Prod.mk.inj (Option.some.inj hrun)
      exact heapGrows_refl h
    | .ref a =>
      simp only [deepCopyHeap] at hrun
      cases hc : h.get? a with
      | none => rw [hc] at hrun; cases hrun
      | some c =>
        rw [hc] at hrun
        cases c with
        | arrCell elems =>
          simp only at hrun
          cases hm : mapHeap (deepCopyHeap fuel) h elems with
          | none => rw [hm] at hrun; cases hrun
          | some p1 =>
            obtain ⟨h1, ys⟩ := p1
            rw [hm] at hrun
            simp only at hrun
            obtain ⟨rfl, rfl⟩ := Prod.mk.inj (Option.some.inj hrun)
            exact heapGrows_trans (mapHeap_grows _ ih elems h h1 ys hm)
              (heapGrows_alloc h1 _)
        | objCell fields =>
          simp only at hrun
          cases hm : copyFieldsHeap (deepCopyHeap fuel) h fields with
          | none => rw [hm] at hrun; cases hrun
          | some p1 =>
            obtain ⟨h1, gs⟩ := p1
            rw [hm] at hrun
            simp only at hrun
            obtain ⟨rfl, rfl⟩ := Prod.mk.inj (Option.some.inj hrun)
            exact heapGrows_trans (copyFieldsHeap_grows _ ih fields h h1 gs hm)
              (heapGrows_alloc h1 _)

/-- When the input is an object or array reference, the scrub returns a
reference to a freshly allocated cell. -/
theorem deIdRecHeap_fresh (fuel : Nat) (h : Heap) (a : Nat) (h' : Heap)
    (v' : HVal) (hrun : deIdRecHeap fuel h (.ref a) = some (h', v')) :
    ∃ b, v' = .ref b ∧ h.length ≤ b := by
  match fuel with
  | 0 => cases hrun
  | fuel + 1 =>
    simp only [deIdRecHeap] at hrun
    cases hc : h.get? a with
    | none => rw [hc] at hrun; cases hrun
    | some c =>
      rw [hc] at hrun
      cases c with
      | arrCell elems =>
        simp only at hrun
        cases hm : mapHeap (deIdRecHeap fuel) h elems with
        | none => rw [hm] at hrun; cases hrun
        | some p1 =>
          obtain ⟨h1, ys⟩ := p1
          rw [hm] at hrun
          simp only at hrun
          obtain ⟨rfl, rfl⟩ := Prod.mk.inj (Option.some.inj hrun)
          exact ⟨h1.length, rfl, (mapHeap_grows _ (deIdRecHeap_grows fuel) elems h h1 ys hm).1⟩
      | objCell fields =>
        simp only at hrun
        cases hm : deIdFieldsHeap (deIdRecHeap fuel) h fields with
        | none => rw [hm] at hrun; cases hrun
        | some p1 =>
          obtain ⟨h1, gs⟩ := p1
          rw [hm] at hrun
          simp only at hrun
          obtain ⟨rfl, rfl⟩ := Prod.mk.inj (Option.some.inj hrun)
          exact ⟨h1.length, rfl,
            (deIdFieldsHeap_grows _ (deIdRecHeap_grows fuel) fields h h1 gs hm).1⟩

/-! ### JavaScript string and number helpers used by parse-ccd -/

/-- Whitespace for `String.prototype.trim` and `parseInt` skipping. -/
def isJsWhitespace (c : Char) : Bool :=
  c == ' ' || c == '\t' || c == '\n' || c == '\r' || c == '\x0B' || c == '\x0C'

/-- Models `rawText.trim()`. -/
def jsTrim (s : String) : String :=
  ⟨((s.data.dropWhile isJsWhitespace).reverse.dropWhile isJsWhitespace).reverse⟩

/-- Models `s.substring(0, n)`: the first `n` characters. -/
def jsSubstringTo (s : String) (n : Nat) : String := ⟨s.data.take n⟩

def digitVal (c : Char) : Option Nat :=
  if '0' ≤ c ∧ c ≤ '9' then some (c.toNat - '0'.toNat) else none

def hexDigitVal (c : Char) : Option Nat :=
  if '0' ≤ c ∧ c ≤ '9' then some (c.toNat - '0'.toNat)
  else if 'a' ≤ c ∧ c ≤ 'f' then some (c.toNat - 'a'.toNat + 10)
  else if 'A' ≤ c ∧ c ≤ 'F' then some (c.toNat - 'A'.toNat + 10)
  else none

/-- Accumulate the longest leading digit run, ignoring the rest
(`parseInt` stops at the first non-digit). -/
def parseDigitsAux (dv : Char → Option Nat) (radix : Nat) :
    List Char → Nat → Nat
  | [], acc => acc
  | c :: cs, acc =>
      match dv c with
      | some d => parseDigitsAux dv radix cs (acc * radix + d)
      | none => acc

/-- Is there at least one leading digit?  `parseInt` yields NaN otherwise. -/
def leadingDigitPresent (dv : Char → Option Nat) : List Char → Bool
  | [] => false
  | c :: _ => (dv c).isSome

/-- Models JavaScript `parseInt(s)` (radix 10, with the 0x hex prefix):
`none` is NaN. -/
def jsParseInt (s : String) : Option Int :=
  let cs := s.data.dropWhile isJsWhitespace
  let signed : Int × List Char :=
    match cs with
    | c :: rest =>
        if c = '-' then (-1, rest) else if c = '+' then (1, rest) else (1, cs)
    | [] => (1, [])
  match signed.2 with
  | '0' :: c :: rest =>
      if c = 'x' ∨ c = 'X' then
        if leadingDigitPresent hexDigitVal rest then
          some (signed.1 * parseDigitsAux hexDigitVal 16 rest 0)
        else none
      else some (signed.1 * parseDigitsAux digitVal 10 signed.2 0)
  | other =>
      if leadingDigitPresent digitVal other then
        some (signed.1 * parseDigitsAux digitVal 10 other 0)
      else none

/-! ### DocumentParser post-validation (parse-ccd/index.ts, lines 279-355) -/

/-- The birth year the age-repair code accepts (lines 296-307): the
`birthDate` value must be truthy, not the literal placeholder
`YYYY-MM-DD`, and a string (a non-string makes `.substring` throw,
which the inner catch turns into a null age); its first four characters
must `parseInt` to a year strictly between 1900 and the current year. -/
def validBirthYear (currentYear : Int) (birthDate : Option Json) : Option Int :=
  match birthDate with
  | some (.str s) =>
      if s = "" ∨ s = "YYYY-MM-DD" then none
      else
        match jsParseInt (jsSubstringTo s 4) with
        | some y => if 1900 < y ∧ y < currentYear then some y else none
        | none => none
  | _ => none

/-- One placeholder replacement `if (x.k === 'string') x.k = null`. -/
def stripPlaceholderField (fs : List (String × Json)) (k : String) :
    List (String × Json) :=
  match lookupField fs k with
  | some (.str s) => if s = "string" then setField fs k .null else fs
  | _ => fs

/-- The age repair of lines 291-311: a numeric age failing the
`age < 0 || age > 120 || age < 2` plausibility test is recomputed from
the birth year when one is valid, else nulled; other ages and
non-numeric values are untouched. -/
def validateAge (currentYear : Int) (d : List (String × Json)) :
    List (String × Json) :=
  match lookupField d "age" with
  | some (.num a) =>
      if a < 0 ∨ a > 120 ∨ a < 2 then
        match validBirthYear currentYear (lookupField d "birthDate") with
        | some y => setField d "age" (.num (currentYear - y))
        | none => setField d "age" .null
      else d
  | _ => d

/-- The demographics block of the post-validation: placeholder cleaning
for name, gender, address, zipCode and phone, then the age repair, in
source order. -/
def validateDemographics (currentYear : Int) (demo : List (String × Json)) :
    List (String × Json) :=
  validateAge currentYear
    (stripPlaceholderField (stripPlaceholderField (stripPlaceholderField
      (stripPlaceholderField (stripPlaceholderField demo "name") "gender")
      "address") "zipCode") "phone")

/-- The list-field filter of lines 326-331: drop the sentinel strings
and nulls. -/
def keepListItem : Json → Bool
  | .str s => !(s == "string" || s == "[object Object]" || s == "N/A")
  | .null => false
  | _ => true

/-- One step of the `arrayFields.forEach` loop (lines 318-333): a
missing or non-array value becomes the empty array, an array is
filtered. -/
def coerceArrayField (fs : List (String × Json)) (k : String) :
    List (String × Json) :=
  match lookupField fs k with
  | some (.arr items) => setField fs k (.arr (items.filter keepListItem))
  | some _ => setField fs k (.arr [])
  | none => setField fs k (.arr [])

/-- The `if (finalData.demographics)` step: only a demographics object
is actually transformed (a truthy non-object passes every placeholder
and age test without a write, a falsy value skips the block). -/
def validateDemographicsField (currentYear : Int)
    (fs : List (String × Json)) : List (String × Json) :=
  match lookupField fs "demographics" with
  | some (.obj dfs) =>
      setField fs "demographics" (.obj (validateDemographics currentYear dfs))
  | _ => fs

def VITAL_SIGN_KEYS : List String :=
  ["height", "weight", "bloodPressure", "temperature", "pulse",
   "respiratoryRate"]

/-- The all-null vital-signs record substituted on lines 337-344. -/
def nullVitalSigns : Json := .obj (VITAL_SIGN_KEYS.map (fun k => (k, .null)))

/-- The vital-signs step (lines 336-354).  A falsy value or a truthy
non-object is replaced by the all-null record; an object gets its six
fields placeholder-cleaned; an array passes `typeof === 'object'`, its
six property reads return undefined, nothing is written, so it is kept. -/
def validateVitalSignsField (fs : List (String × Json)) :
    List (String × Json) :=
  match lookupField fs "vitalSigns" with
  | some (.obj vfs) =>
      setField fs "vitalSigns" (.obj (VITAL_SIGN_KEYS.foldl stripPlaceholderField vfs))
  | some (.arr _) => fs
  | some _ => setField fs "vitalSigns" nullVitalSigns
  | none => setField fs "vitalSigns" nullVitalSigns

/-- The whole post-validation block applied to the JSON parsed from the
LLM text (lines 276-355).  The block is guarded by `if (finalData)`, so
a falsy value (null, false, 0, the empty string) is returned untouched.
For an array, the property writes create named properties that
`JSON.stringify` drops, so the serialized result is the unchanged
array.  For a truthy primitive the first `finalData[field] = []` throws
a strict-mode TypeError, caught as a parse failure by the surrounding
try.  For an object the full demographics, array-fields and vital-signs
steps run. -/
def validateFinalData (currentYear : Int) (finalData : Json) :
    Except String Json :=
  if finalData.truthy = false then .ok finalData
  else
    match finalData with
    | .obj fs0 =>
        .ok (.obj (validateVitalSignsField
          (coerceArrayField (coerceArrayField (coerceArrayField
            (coerceArrayField (validateDemographicsField currentYear fs0)
              "conditions") "medications") "allergies") "procedures")))
    | .arr elems => .ok (.arr elems)
    | _ => .error "TypeError: Cannot create property on a primitive value"

/-- Does the serialized response carry field `k` as a JSON array? -/
def fieldIsArray (j : Json) (k : String) : Bool :=
  match j with
  | .obj fs =>
      match lookupField fs k with
      | some (.arr _) => true
      | _ => false
  | _ => false

/-! ### HTTP layer -/

structure HttpResponse where
  status : Nat
  body : Json
  deriving Repr

def errorResponse (status : Nat) (msg : String) : HttpResponse :=
  { status := status, body := .obj [("error", .str msg)] }

/-- Does the JSON response body contain an `error` field? -/
def hasErrorField (r : HttpResponse) : Bool :=
  match r.body with
  | .obj fs => (lookupField fs "error").isSome
  | _ => false

/-- An incoming request: method, content type, and the body.  `none`
models a request carrying no body payload (`req.body` is null and
`req.text()` yields the empty string). -/
structure Request where
  method : String
  contentType : String
  body : Option String
  deriving Repr

/-- The outcome of one outbound LLM call, passed to the handler models
as an oracle: a non-2xx failure (or thrown network error), a 2xx
response with no usable candidate text, or candidate text. -/
inductive GeminiOutcome where
  | fail (status : Nat) (message : String) : GeminiOutcome
  | empty : GeminiOutcome
  | text (t : String) : GeminiOutcome
  deriving Repr

/-- Does `sub` occur as a contiguous run inside the list? -/
def containsSub (sub : List Char) : List Char → Bool
  | [] => sub.isEmpty
  | x :: xs => List.isPrefixOf sub (x :: xs) || containsSub sub xs

/-- Substring test, models `String.prototype.includes`. -/
def strContains (s sub : String) : Bool := containsSub sub.data s.data

def leftBrace : Char := Char.ofNat 123

def rightBrace : Char := Char.ofNat 125

/-- The content sniff `rawText.trim().startsWith(...) && ...endsWith(...)`
for a JSON-looking body without a JSON content type. -/
def looksLikeJsonObject (s : String) : Bool :=
  (jsTrim s).data.head? == some leftBrace
    && (jsTrim s).data.getLast? == some rightBrace

/-- The `jsonObj && typeof jsonObj.xml === 'string'` unwrap: a parsed
object with a string `xml` field yields that string, anything else
falls back to the raw text. -/
def extractXmlField (j : Json) (rawText : String) : String :=
  match j with
  | .obj fs =>
      match lookupField fs "xml" with
      | some (.str x) => x
      | _ => rawText
  | _ => rawText

/-- BODY READING of parse-ccd (lines 41-105): choose the CCD payload
from the content type and shape of the raw body; a JSON content type
with an unparsable body is a 400 error. -/
def ccdDataOf (jsParse : String → Option Json) (contentType rawText : String) :
    Except HttpResponse String :=
  if strContains contentType "xml" then .ok rawText
  else if strContains contentType "json" then
    match jsParse rawText with
    | none => .error (errorResponse 400 "Invalid JSON in request body")
    | some j => .ok (extractXmlField j rawText)
  else if looksLikeJsonObject rawText then
    match jsParse rawText with
    | none => .ok rawText
    | some j => .ok (extractXmlField j rawText)
  else .ok rawText

/-- The markdown-fence cleanup `replace(/^BACKTICKSjson\n?/, '')` applied
to the LLM text (the regex consumes an optional trailing newline). -/
def stripLeadingFence (s : String) : String :=
  if List.isPrefixOf "```json\n".data s.data then ⟨s.data.drop 8⟩
  else if List.isPrefixOf "```json".data s.data then ⟨s.data.drop 7⟩
  else s

/-- The cleanup `replace(/\n?BACKTICKS$/, '')` for the closing fence. -/
def stripTrailingFence (s : String) : String :=
  if List.isSuffixOf "\n```".data s.data then ⟨s.data.take (s.data.length - 4)⟩
  else if List.isSuffixOf "```".data s.data then ⟨s.data.take (s.data.length - 3)⟩
  else s

/-- The mock clinical summary returned for the TEST_MODE bypass
(lines 124-160). -/
def mockCcdResponse : Json :=
  .obj [
    ("demographics", .obj [
      ("name", .str "John Doe"),
      ("gender", .str "Male"),
      ("birthDate", .str "1950-01-01"),
      ("age", .num 73),
      ("address", .str "123 Main St, Anytown"),
      ("zipCode", .str "12345"),
      ("phone", .str "555-123-4567")]),
    ("conditions", .arr [.str "Hypertension", .str "Type 2 Diabetes",
      .str "Hyperlipidemia"]),
    ("medications", .arr [.str "Lisinopril 10mg daily",
      .str "Metformin 500mg twice daily", .str "Atorvastatin 20mg daily"]),
    ("allergies", .arr [.str "Penicillin", .str "Sulfa drugs"]),
    ("procedures", .arr [.str "Colonoscopy (2020-03-15)",
      .str "Cataract surgery (2019-07-10)"]),
    ("vitalSigns", .obj [
      ("height", .str "5\x2710\" (178 cm)"),
      ("weight", .str "180 lbs (82 kg)"),
      ("bloodPressure", .str "130/82 mmHg"),
      ("temperature", .str "98.6 F (37 C)"),
      ("pulse", .str "72 bpm"),
      ("respiratoryRate", .str "16 breaths/min")])]

/-- The 500 response of the Gemini-processing catch (lines 374-385):
error, details, and a 200-character snippet of the CCD payload. -/
def processingErrorResponse (ccdData details : String) : HttpResponse :=
  { status := 500,
    body := .obj [
      ("error", .str "Error processing CCD with Gemini"),
      ("details", .str details),
      ("xmlSnippet", .str (jsSubstringTo ccdData 200 ++ "..."))] }

/-- The parse-ccd request handler (DocumentParser).  `jsParse` is the
runtime JSON parser (`none` models a thrown SyntaxError), `gemini` the
outcome of the single outbound LLM call, `currentYear` the clock read
by the age repair. -/
def parseCcdServe (apiKeyPresent : Bool) (currentYear : Int)
    (jsParse : String → Option Json) (gemini : GeminiOutcome)
    (req : Request) : HttpResponse :=
  if req.method = "OPTIONS" then { status := 200, body := .str "ok" }
  else if apiKeyPresent = false then
    errorResponse 500 "Server configuration error: Missing API key."
  else
    let rawText := req.body.getD ""
    if jsTrim rawText = "" then errorResponse 400 "Empty request body"
    else
      match ccdDataOf jsParse req.contentType rawText with
      | .error resp => resp
      | .ok ccdData =>
          if ccdData = "TEST_MODE" then
            { status := 200, body := mockCcdResponse }
          else
            match gemini with
            | .fail status _ =>
                processingErrorResponse ccdData
                  ("Gemini API error: Gemini API failed: " ++ toString status)
            | .empty =>
                processingErrorResponse ccdData
                  "Gemini API error: Failed to extract content: Could not find generated text in Gemini response."
            | .text t =>
                match jsParse (stripTrailingFence (stripLeadingFence t)) with
                | none =>
                    processingErrorResponse ccdData
                      "Gemini API error: Gemini returned invalid JSON"
                | some parsed =>
                    match validateFinalData currentYear parsed with
                    | .ok finalData => { status := 200, body := finalData }
                    | .error e =>
                        processingErrorResponse ccdData
                          ("Gemini API error: Gemini returned invalid JSON: " ++ e)

/-- The extract-facts request handler (FactExtractor).  The prompt
embeds the de-identified input; the LLM reply is an oracle, so the
de-identified value itself does not influence the modelled response. -/
def extractFactsServe (apiKeyPresent : Bool)
    (jsParse : String → Option Json) (gemini : GeminiOutcome)
    (req : Request) : HttpResponse :=
  if req.method = "OPTIONS" then { status := 200, body := .str "ok" }
  else
    match req.body with
    | none => errorResponse 400 "Missing request body"
    | some raw =>
        match jsParse raw with
        | none =>
            errorResponse 500 "Fact extraction failed: Unexpected end of JSON input"
        | some parsedInputData =>
            let _deIdentified := deIdentifyData parsedInputData
            if apiKeyPresent = false then
              errorResponse 500
                "Fact extraction failed: GOOGLE_API_KEY is not configured in Supabase secrets."
            else
              match gemini with
              | .fail _ message =>
                  errorResponse 500 ("Fact extraction failed: " ++ message)
              | .empty =>
                  errorResponse 500
                    "Fact extraction failed: Gemini returned an empty or invalid response."
              | .text t =>
                  match jsParse t with
                  | none =>
                      errorResponse 500
                        "Fact extraction failed: Unexpected end of JSON input"
                  | some extractedFacts =>
                      { status := 200, body := extractedFacts }

/-! ### TrialSearcher query construction (search-trials, lines 54-105) -/

structure Condition where
  term : String
  icd10Code : Option String := none
  deriving Repr

structure ExtractedFacts where
  age : Option Int := none
  gender : Option String := none
  conditions : Option (List Condition) := none
  zipCode : Option String := none
  deriving Repr

structure SearchFilters where
  recruitingStatus : Option String := none
  travelRadiusMiles : Option Int := none
  phase : Option (List String) := none
  conditionKeyword : Option String := none
  deriving Repr

/-- The `status` binding of lines 62-63: null for `'ANY'`, otherwise
the filter value with falsy values (absent or empty) defaulting to
RECRUITING. -/
def statusValue (filters : SearchFilters) : Option String :=
  if filters.recruitingStatus = some "ANY" then none
  else
    match filters.recruitingStatus with
    | some s => if s = "" then some "RECRUITING" else some s
    | none => some "RECRUITING"

/-- Status clause (lines 62-66). -/
def statusClause (filters : SearchFilters) : List String :=
  match statusValue filters with
  | some s => ["STATUS " ++ s]
  | none => []

/-- The term `extractedFacts.conditions?.map(c => c.term).join(' OR ')`:
undefined when the conditions list is absent, the empty string when it
is empty. -/
def factsConditionTerm (facts : ExtractedFacts) : Option String :=
  match facts.conditions with
  | some cs => some (String.intercalate " OR " (cs.map Condition.term))
  | none => none

/-- Condition clause (lines 68-73): the keyword override wins when
truthy, otherwise the disjunction of extracted terms; a falsy term
suppresses the clause. -/
def conditionTermValue (facts : ExtractedFacts) (filters : SearchFilters) :
    Option String :=
  match filters.conditionKeyword with
  | some k => if k = "" then factsConditionTerm facts else some k
  | none => factsConditionTerm facts

def conditionClause (facts : ExtractedFacts) (filters : SearchFilters) :
    List String :=
  match conditionTermValue facts filters with
  | some t => if t = "" then [] else ["AREA[Condition] " ++ t]
  | none => []

/-- Gender clause (lines 84-87): only emitted for a truthy gender other
than the literal `'Other'`; Male and Female map to themselves, anything
else to All. -/
def genderClause (facts : ExtractedFacts) : List String :=
  match facts.gender with
  | some g =>
      if g = "" ∨ g = "Other" then []
      else ["AREA[Gender] " ++ (if g = "Male" ∨ g = "Female" then g else "All")]
  | none => []

/-- Location clause (lines 89-92): emitted only when both
`filters.travelRadiusMiles` and `extractedFacts.zipCode` are truthy
(present, nonzero, nonempty). -/
def locationClause (facts : ExtractedFacts) (filters : SearchFilters) :
    List String :=
  match filters.travelRadiusMiles, facts.zipCode with
  | some r, some z =>
      if r = 0 ∨ z = "" then []
      else ["AREA[LocationGeoPoint] NEAR[" ++ z ++ "] " ++ toString r ++ " miles"]
  | _, _ => []

/-- Phase clause (lines 95-97). -/
def phaseClause (filters : SearchFilters) : List String :=
  match filters.phase with
  | some ps =>
      if ps.length > 0 then ["AREA[Phase] " ++ String.intercalate " OR " ps]
      else []
  | none => []

/-- The clause list pushed into `filterQueryParts`, in source order
(the age clause of lines 76-81 is commented out in the source and so
contributes nothing). -/
def buildFilterQueryParts (facts : ExtractedFacts) (filters : SearchFilters) :
    List String :=
  statusClause filters ++ conditionClause facts filters ++ genderClause facts
    ++ locationClause facts filters ++ phaseClause filters

/-- The `filter.advanced` string: the clauses joined with AND. -/
def advancedFilter (facts : ExtractedFacts) (filters : SearchFilters) : String :=
  String.intercalate " AND " (buildFilterQueryParts facts filters)

/-- Outcome of the registry GET, as an oracle: non-2xx failure, or a
payload whose `studies` field may be absent. -/
inductive RegistryOutcome where
  | fail (status : Nat) : RegistryOutcome
  | ok (studies : Option (List Json)) : RegistryOutcome
  deriving Repr

/-- The search-trials request handler (TrialSearcher).  `jsDecode`
models `await req.json()` plus the destructuring into facts and
filters; `none` covers a body whose JSON parse throws or whose fields
are unusable (the handler turns any such throw into a 500). -/
def searchTrialsServe
    (jsDecode : String → Option (ExtractedFacts × SearchFilters))
    (registry : RegistryOutcome) (req : Request) : HttpResponse :=
  if req.method = "OPTIONS" then { status := 200, body := .str "ok" }
  else
    match req.body with
    | none => errorResponse 400 "Missing request body"
    | some raw =>
        match jsDecode raw with
        | none =>
            errorResponse 500 "Trial search failed: Unexpected end of JSON input"
        | some (extractedFacts, filters) =>
            let _query := advancedFilter extractedFacts filters
            match registry with
            | .fail status =>
                errorResponse 500
                  ("Trial search failed: ClinicalTrials.gov API request failed with status "
                    ++ toString status)
            | .ok studies => { status := 200, body := .arr (studies.getD []) }

/-! ### TrialRanker handler (rank-summarize-trials/index.ts) -/

/-- The decoded rank request body: `trials` is `none` when the field is
absent (JS undefined) and `some ts` when it is an array.  Trials are
kept opaque; the claims touch only the list shape. -/
structure RankPayload where
  extractedFacts : Json
  trials : Option (List Json)
  deriving Repr

/-- The handler result together with whether the outbound LLM request
was issued. -/
structure RankResult where
  response : HttpResponse
  llmCalled : Bool
  deriving Repr

/-- The rank-summarize-trials request handler (TrialRanker).  The log
statement on line 110 evaluates `trials.length` before the empty-list
guard, so an absent `trials` field throws a TypeError that the catch
turns into a 500 before any outbound call. -/
def rankSummarizeServe (jsDecode : String → Option RankPayload)
    (jsParse : String → Option Json) (gemini : GeminiOutcome)
    (req : Request) : RankResult :=
  if req.method = "OPTIONS" then
    ⟨{ status := 200, body := .str "ok" }, false⟩
  else
    match req.body with
    | none => ⟨errorResponse 400 "Missing request body", false⟩
    | some raw =>
        match jsDecode raw with
        | none =>
            ⟨errorResponse 500
              "Ranking/summarization failed: Unexpected end of JSON input", false⟩
        | some payload =>
            match payload.trials with
            | none =>
                ⟨errorResponse 500
                  "Ranking/summarization failed: Cannot read properties of undefined (reading \x27length\x27)",
                 false⟩
            | some [] => ⟨{ status := 200, body := .arr [] }, false⟩
            | some (_ :: _) =>
                match gemini with
                | .fail status message =>
                    ⟨errorResponse 500
                      ("Ranking/summarization failed: Gemini API request failed with status "
                        ++ toString status ++ ": " ++ message), true⟩
                | .empty =>
                    ⟨errorResponse 500
                      "Ranking/summarization failed: Gemini returned an empty or invalid response structure for ranking.",
                     true⟩
                | .text t =>
                    match jsParse t with
                    | none =>
                        ⟨errorResponse 500
                          "Ranking/summarization failed: Unexpected end of JSON input",
                         true⟩
                    | some ranked => ⟨{ status := 200, body := ranked }, true⟩

/-! ### String-prefix gadgets for clause analysis -/

/-- Does `s` start with `p`?  Models `String.prototype.startsWith`. -/
def strStartsWith (s p : String) : Bool := List.isPrefixOf p.data s.data

theorem isPrefixOf_refl (l : List Char) : List.isPrefixOf l l = true := by
  induction l with
  | nil => rfl
  | cons c cs ih => simp [List.isPrefixOf, ih]

theorem isPrefixOf_append_true (p l r : List Char)
    (h : List.isPrefixOf p l = true) : List.isPrefixOf p (l ++ r) = true := by
  induction l generalizing p with
  | nil =>
    cases p with
    | nil => simp [List.isPrefixOf]
    | cons a as => simp [List.isPrefixOf] at h
  | cons b bs ih =>
    cases p with
    | nil => simp [List.isPrefixOf]
    | cons a as =>
      simp only [List.isPrefixOf, Bool.and_eq_true, List.cons_append] at h ⊢
      exact ⟨h.1, ih as h.2⟩

theorem isPrefixOf_append_false (p l r : List Char)
    (h : List.isPrefixOf (p.take l.length) l = false) :
    List.isPrefixOf p (l ++ r) = false := by
  induction l generalizing p with
  | nil => simp [List.isPrefixOf] at h
  | cons b bs ih =>
    cases p with
    | nil => simp [List.isPrefixOf] at h
    | cons a as =>
      simp only [List.length_cons, List.take_succ_cons, List.isPrefixOf,
        List.cons_append, Bool.and_eq_false_iff] at h ⊢
      cases h with
      | inl hab => exact Or.inl hab
      | inr hrest => exact Or.inr (ih as hrest)

/-- A string of the form `lit ++ t` does not start with `q` whenever
the relevant leading characters of `q` mismatch `lit`. -/
theorem strStartsWith_false_of_shape (p q lit : String) (cs : List Char)
    (hdata : p.data = lit.data ++ cs)
    (h : List.isPrefixOf (q.data.take lit.data.length) lit.data = false) :
    strStartsWith p q = false := by
  unfold strStartsWith
  rw [hdata]
  exact isPrefixOf_append_false _ _ _ h

theorem strStartsWith_true_of_shape (p q lit : String) (cs : List Char)
    (hdata : p.data = lit.data ++ cs)
    (h : List.isPrefixOf q.data lit.data = true) :
    strStartsWith p q = true := by
  unfold strStartsWith
  rw [hdata]
  exact isPrefixOf_append_true _ _ _ h

theorem containsSub_of_isPrefixOf (sub l : List Char)
    (h : List.isPrefixOf sub l = true) : containsSub sub l = true := by
  cases l with
  | nil =>
    cases sub with
    | nil => rfl
    | cons a as => simp [List.isPrefixOf] at h
  | cons c cs => simp [containsSub, h]

theorem containsSub_append_right (sub l r : List Char)
    (h : containsSub sub r = true) : containsSub sub (l ++ r) = true := by
  induction l with
  | nil => simpa using h
  | cons c cs ih => simp [containsSub, ih]

/-- Models `parts.join(' AND ')`, as in
`filterQueryParts.join(' AND ')`. -/
def joinWith (sep : String) : List String → String
  | [] => ""
  | [x] => x
  | x :: xs => x ++ sep ++ joinWith sep xs

/-- Every clause of the list occurs verbatim inside the joined string. -/
theorem strContains_joinWith_of_mem (sep : String) (l : List String)
    (p : String) (hp : p ∈ l) : strContains (joinWith sep l) p = true := by
  induction l with
  | nil => cases hp
  | cons x xs ih =>
    cases hp with
    | head =>
      cases xs with
      | nil =>
        unfold strContains
        exact containsSub_of_isPrefixOf _ _ (isPrefixOf_refl _)
      | cons y ys =>
        unfold strContains joinWith
        rw [String.data_append, String.data_append, List.append_assoc]
        exact containsSub_of_isPrefixOf _ _
          (isPrefixOf_append_true _ _ _ (isPrefixOf_refl _))
    | tail _ hmem =>
      cases xs with
      | nil => cases hmem
      | cons y ys =>
        unfold strContains joinWith
        rw [String.data_append, String.data_append, List.append_assoc]
        exact containsSub_append_right _ _ _
          (containsSub_append_right _ _ _ (ih hmem))

/-! ### Clause shapes -/

theorem statusClause_shape (filters : SearchFilters) (p : String)
    (hp : p ∈ statusClause filters) : ∃ cs, p.data = "STATUS ".data ++ cs := by
  unfold statusClause at hp
  cases h : statusValue filters with
  | none => rw [h] at hp; simp only at hp; cases hp
  | some s =>
    rw [h] at hp
    simp only at hp
    rw [List.mem_singleton] at hp
    exact ⟨s.data, by rw [hp, String.data_append]⟩

theorem conditionClause_shape (facts : ExtractedFacts)
    (filters : SearchFilters) (p : String)
    (hp : p ∈ conditionClause facts filters) :
    ∃ cs, p.data = "AREA[Condition] ".data ++ cs := by
  unfold conditionClause at hp
  cases h : conditionTermValue facts filters with
  | none => rw [h] at hp; simp only at hp; cases hp
  | some t =>
    rw [h] at hp
    simp only at hp
    by_cases ht : t = ""
    · rw [if_pos ht] at hp; cases hp
    · rw [if_neg ht, List.mem_singleton] at hp
      exact ⟨t.data, by rw [hp, String.data_append]⟩

theorem genderClause_shape (facts : ExtractedFacts) (p : String)
    (hp : p ∈ genderClause facts) :
    ∃ cs, p.data = "AREA[Gender] ".data ++ cs := by
  unfold genderClause at hp
  cases hg : facts.gender with
  | none => rw [hg] at hp; simp only at hp; cases hp
  | some g =>
    rw [hg] at hp
    simp only at hp
    by_cases hcase : g = "" ∨ g = "Other"
    · rw [if_pos hcase] at hp; cases hp
    · rw [if_neg hcase, List.mem_singleton] at hp
      exact ⟨(if g = "Male" ∨ g = "Female" then g else "All").data,
        by rw [hp, String.data_append]⟩

theorem locationClause_shape (facts : ExtractedFacts)
    (filters : SearchFilters) (p : String)
    (hp : p ∈ locationClause facts filters) :
    ∃ cs, p.data = "AREA[LocationGeoPoint] NEAR[".data ++ cs := by
  unfold locationClause at hp
  cases hr : filters.travelRadiusMiles with
  | none => rw [hr] at hp; simp only at hp; cases hp
  | some r =>
    cases hz : facts.zipCode with
    | none => rw [hr, hz] at hp; simp only at hp; cases hp
    | some z =>
      rw [hr, hz] at hp
      simp only at hp
      by_cases hcase : r = 0 ∨ z = ""
      · rw [if_pos hcase] at hp; cases hp
      · rw [if_neg hcase, List.mem_singleton] at hp
        refine ⟨(z ++ "] " ++ toString r ++ " miles").data, ?_⟩
        rw [hp]
        simp [String.data_append, List.append_assoc]

theorem phaseClause_shape (filters : SearchFilters) (p : String)
    (hp : p ∈ phaseClause filters) :
    ∃ cs, p.data = "AREA[Phase] ".data ++ cs := by
  unfold phaseClause at hp
  cases hph : filters.phase with
  | none => rw [hph] at hp; simp only at hp; cases hp
  | some ps =>
    rw [hph] at hp
    simp only at hp
    by_cases hlen : ps.length > 0
    · rw [if_pos hlen, List.mem_singleton] at hp
      exact ⟨(String.intercalate " OR " ps).data, by rw [hp, String.data_append]⟩
    · rw [if_neg hlen] at hp; cases hp

/-- JS truthiness of `filters.travelRadiusMiles`: present and nonzero. -/
def optNumTruthy : Option Int → Bool
  | some n => n != 0
  | none => false

/-- JS truthiness of `extractedFacts.zipCode`: present and nonempty. -/
def optStrTruthy : Option String → Bool
  | some s => s != ""
  | none => false

/-- C5: when `filters.recruitingStatus` is `'ANY'` the constructed
advanced filter contains no status clause (no clause of the list starts
with STATUS), and when the field is absent the clause list contains
`STATUS RECRUITING`, which consequently occurs verbatim in the joined
filter string. -/
theorem c5_status_filter (facts : ExtractedFacts) (filters : SearchFilters) :
    (filters.recruitingStatus = some "ANY" →
      ∀ p ∈ buildFilterQueryParts facts filters,
        strStartsWith p "STATUS" = false)
    ∧ (filters.recruitingStatus = none →
      "STATUS RECRUITING" ∈ buildFilterQueryParts facts filters
        ∧ strContains (joinWith " AND " (buildFilterQueryParts facts filters))
            "STATUS RECRUITING" = true) := by
  constructor
  · intro hany p hp
    have hstat : statusClause filters = [] := by
      unfold statusClause statusValue
      rw [hany]
      decide
    unfold buildFilterQueryParts at hp
    rw [hstat] at hp
    simp only [List.nil_append, List.mem_append] at hp
    rcases hp with ((hp | hp) | hp) | hp
    · obtain ⟨cs, hdata⟩ := conditionClause_shape facts filters p hp
      exact strStartsWith_false_of_shape p "STATUS" "AREA[Condition] " cs
        hdata (by decide)
    · obtain ⟨cs, hdata⟩ := genderClause_shape facts p hp
      exact strStartsWith_false_of_shape p "STATUS" "AREA[Gender] " cs
        hdata (by decide)
    · obtain ⟨cs, hdata⟩ := locationClause_shape facts filters p hp
      exact strStartsWith_false_of_shape p "STATUS"
        "AREA[LocationGeoPoint] NEAR[" cs hdata (by decide)
    · obtain ⟨cs, hdata⟩ := phaseClause_shape filters p hp
      exact strStartsWith_false_of_shape p "STATUS" "AREA[Phase] " cs
        hdata (by decide)
  · intro hnone
    have hval : statusValue filters = some "RECRUITING" := by
      unfold statusValue
      rw [hnone]
      decide
    have hstat : statusClause filters = ["STATUS RECRUITING"] := by
      unfold statusClause
      rw [hval]
      decide
    have hmem : "STATUS RECRUITING" ∈ buildFilterQueryParts facts filters := by
      unfold buildFilterQueryParts
      rw [hstat]
      simp [List.mem_append]
    exact ⟨hmem, strContains_joinWith_of_mem _ _ _ hmem⟩

/-- Witness for C5 at concrete filter values. -/
theorem c5_status_filter_witness :
    (({ recruitingStatus := some "ANY" } : SearchFilters).recruitingStatus
        = some "ANY"
      ∧ ∀ p ∈ buildFilterQueryParts {} { recruitingStatus := some "ANY" },
          strStartsWith p "STATUS" = false)
    ∧ (({} : SearchFilters).recruitingStatus = none
      ∧ ("STATUS RECRUITING" ∈ buildFilterQueryParts {} {}
          ∧ strContains (joinWith " AND " (buildFilterQueryParts {} {}))
              "STATUS RECRUITING" = true)) :=
  ⟨⟨rfl, (c5_status_filter {} { recruitingStatus := some "ANY" }).1 rfl⟩,
   ⟨rfl, (c5_status_filter {} {}).2 rfl⟩⟩

/-- C6 counterexample: for gender Other the source emits no gender
clause at all (the guard `gender !== 'Other'` fails), so no
`AREA[Gender] All` clause appears, contradicting the claim that any
non-Male/Female gender defaults to All. -/
theorem c6_counterexample :
    ¬ ("AREA[Gender] All"
        ∈ buildFilterQueryParts { gender := some "Other" } {})
    ∧ buildFilterQueryParts { gender := some "Other" } {}
        = ["STATUS RECRUITING"] := by
  constructor
  · decide
  · decide

/-- C6 amended: a truthy gender other than the literal `'Other'` yields
a gender clause using Male or Female verbatim and All otherwise; for a
gender that is `'Other'`, empty, or absent, no gender clause is emitted
at all. -/
theorem c6_amended (facts : ExtractedFacts) (filters : SearchFilters) :
    (∀ g, facts.gender = some g → g ≠ "" → g ≠ "Other" →
      ("AREA[Gender] " ++ (if g = "Male" ∨ g = "Female" then g else "All"))
        ∈ buildFilterQueryParts facts filters)
    ∧ ((facts.gender = none ∨ facts.gender = some ""
          ∨ facts.gender = some "Other") →
      ∀ p ∈ buildFilterQueryParts facts filters,
        strStartsWith p "AREA[Gender] " = false) := by
  constructor
  · intro g hg hne hno
    have hclause : genderClause facts
        = ["AREA[Gender] " ++ (if g = "Male" ∨ g = "Female" then g else "All")] := by
      unfold genderClause
      rw [hg]
      simp only
      rw [if_neg (by tauto)]
    unfold buildFilterQueryParts
    rw [hclause]
    simp [List.mem_append]
  · intro hfalsy p hp
    have hclause : genderClause facts = [] := by
      rcases hfalsy with h | h | h
      · unfold genderClause; rw [h]
      · unfold genderClause; rw [h]; decide
      · unfold genderClause; rw [h]; decide
    unfold buildFilterQueryParts at hp
    rw [hclause] at hp
    simp only [List.append_nil, List.mem_append] at hp
    rcases hp with ((hp | hp) | hp) | hp
    · obtain ⟨cs, hdata⟩ := statusClause_shape filters p hp
      exact strStartsWith_false_of_shape p "AREA[Gender] " "STATUS " cs
        hdata (by decide)
    · obtain ⟨cs, hdata⟩ := conditionClause_shape facts filters p hp
      exact strStartsWith_false_of_shape p "AREA[Gender] " "AREA[Condition] " cs
        hdata (by decide)
    · obtain ⟨cs, hdata⟩ := locationClause_shape facts filters p hp
      exact strStartsWith_false_of_shape p "AREA[Gender] "
        "AREA[LocationGeoPoint] NEAR[" cs hdata (by decide)
    · obtain ⟨cs, hdata⟩ := phaseClause_shape filters p hp
      exact strStartsWith_false_of_shape p "AREA[Gender] " "AREA[Phase] " cs
        hdata (by decide)

/-- Witness for the amended C6 at concrete gender values. -/
theorem c6_amended_witness :
    (({ gender := some "Nonbinary" } : ExtractedFacts).gender
        = some "Nonbinary"
      ∧ ("AREA[Gender] "
            ++ (if "Nonbinary" = "Male" ∨ "Nonbinary" = "Female"
                then "Nonbinary" else "All"))
          ∈ buildFilterQueryParts { gender := some "Nonbinary" } {})
    ∧ (∀ p ∈ buildFilterQueryParts { gender := some "Other" } {},
        strStartsWith p "AREA[Gender] " = false) :=
  ⟨⟨rfl, (c6_amended { gender := some "Nonbinary" } {}).1 "Nonbinary" rfl
      (by decide) (by decide)⟩,
   (c6_amended { gender := some "Other" } {}).2 (Or.inr (Or.inr rfl))⟩

/-- C7 counterexample: both inputs are present (radius zero, zip
10001), yet no proximity clause is constructed, because the source
tests JS truthiness, not presence. -/
theorem c7_counterexample :
    ({ travelRadiusMiles := some 0 : SearchFilters }).travelRadiusMiles.isSome
        = true
    ∧ ({ zipCode := some "10001" : ExtractedFacts }).zipCode.isSome = true
    ∧ (buildFilterQueryParts { zipCode := some "10001" }
          { travelRadiusMiles := some 0 }).any
        (fun p => strStartsWith p "AREA[LocationGeoPoint]") = false := by
  refine ⟨rfl, rfl, by decide⟩

/-- C7 amended: a proximity clause appears in the constructed filter if
and only if the travel radius is present and nonzero and the postal
code is present and nonempty (JS truthiness of both operands). -/
theorem c7_amended (facts : ExtractedFacts) (filters : SearchFilters) :
    (∃ p ∈ buildFilterQueryParts facts filters,
        strStartsWith p "AREA[LocationGeoPoint]" = true)
      ↔ (optNumTruthy filters.travelRadiusMiles = true
          ∧ optStrTruthy facts.zipCode = true) := by
  constructor
  · rintro ⟨p, hp, hstart⟩
    unfold buildFilterQueryParts at hp
    simp only [List.mem_append] at hp
    rcases hp with (((hp | hp) | hp) | hp) | hp
    · obtain ⟨cs, hdata⟩ := statusClause_shape filters p hp
      rw [strStartsWith_false_of_shape p "AREA[LocationGeoPoint]" "STATUS " cs
        hdata (by decide)] at hstart
      cases hstart
    · obtain ⟨cs, hdata⟩ := conditionClause_shape facts filters p hp
      rw [strStartsWith_false_of_shape p "AREA[LocationGeoPoint]"
        "AREA[Condition] " cs hdata (by decide)] at hstart
      cases hstart
    · obtain ⟨cs, hdata⟩ := genderClause_shape facts p hp
      rw [strStartsWith_false_of_shape p "AREA[LocationGeoPoint]"
        "AREA[Gender] " cs hdata (by decide)] at hstart
      cases hstart
    · unfold locationClause at hp
      cases hr : filters.travelRadiusMiles with
      | none => rw [hr] at hp; simp only at hp; cases hp
      | some r =>
        cases hz : facts.zipCode with
        | none => rw [hr, hz] at hp; simp only at hp; cases hp
        | some z =>
          rw [hr, hz] at hp
          simp only at hp
          by_cases hcase : r = 0 ∨ z = ""
          · rw [if_pos hcase] at hp; cases hp
          · push_neg at hcase
            unfold optNumTruthy optStrTruthy
            constructor
            · simpa using hcase.1
            · simpa using hcase.2
    · obtain ⟨cs, hdata⟩ := phaseClause_shape filters p hp
      rw [strStartsWith_false_of_shape p "AREA[LocationGeoPoint]"
        "AREA[Phase] " cs hdata (by decide)] at hstart
      cases hstart
  · rintro ⟨htr, htz⟩
    cases hr : filters.travelRadiusMiles with
    | none => rw [hr] at htr; cases htr
    | some r =>
      cases hz : facts.zipCode with
      | none => rw [hz] at htz; cases htz
      | some z =>
        rw [hr] at htr
        rw [hz] at htz
        unfold optNumTruthy at htr
        unfold optStrTruthy at htz
        have hcl : locationClause facts filters
            = ["AREA[LocationGeoPoint] NEAR[" ++ z ++ "] "
                ++ toString r ++ " miles"] := by
          unfold locationClause
          rw [hr, hz]
          simp only
          rw [if_neg ?hne]
          case hne =>
            rintro (h0 | h0)
            · rw [h0] at htr; cases htr
            · rw [h0] at htz; cases htz
        refine ⟨"AREA[LocationGeoPoint] NEAR[" ++ z ++ "] "
            ++ toString r ++ " miles", ?_, ?_⟩
        · unfold buildFilterQueryParts
          rw [hcl]
          simp [List.mem_append]
        · refine strStartsWith_true_of_shape _ _
            "AREA[LocationGeoPoint] NEAR["
            ((z ++ "] " ++ toString r ++ " miles").data) ?_ (by decide)
          simp [String.data_append, List.append_assoc]

/-- Witness for the amended C7 at a concrete radius and zip code. -/
theorem c7_amended_witness :
    optNumTruthy
        ({ travelRadiusMiles := some 25 : SearchFilters }).travelRadiusMiles
        = true
    ∧ optStrTruthy ({ zipCode := some "10001" : ExtractedFacts }).zipCode = true
    ∧ (∃ p ∈ buildFilterQueryParts { zipCode := some "10001" }
          { travelRadiusMiles := some 25 },
        strStartsWith p "AREA[LocationGeoPoint]" = true) :=
  ⟨rfl, rfl,
   (c7_amended { zipCode := some "10001" }
      { travelRadiusMiles := some 25 }).mpr ⟨rfl, rfl⟩⟩

/-! ### Lookup lemmas for the post-validation steps -/

theorem lookupField_strip_ne (fs : List (String × Json)) (k k' : String)
    (h : k' ≠ k) :
    lookupField (stripPlaceholderField fs k) k' = lookupField fs k' := by
  unfold stripPlaceholderField
  cases hv : lookupField fs k with
  | none => rfl
  | some v =>
    cases v with
    | str s =>
      simp only
      by_cases hs : s = "string"
      · rw [if_pos hs]
        exact lookupField_setField_ne fs k k' _ h
      · rw [if_neg hs]
    | null => rfl
    | bool b => rfl
    | num n => rfl
    | arr elems => rfl
    | obj fields => rfl

theorem lookupField_coerce_self (fs : List (String × Json)) (k : String) :
    ∃ items, lookupField (coerceArrayField fs k) k
      = some (Json.arr items) := by
  unfold coerceArrayField
  cases hv : lookupField fs k with
  | none => exact ⟨[], lookupField_setField_self fs k _⟩
  | some v =>
    cases v with
    | arr items =>
      exact ⟨items.filter keepListItem, lookupField_setField_self fs k _⟩
    | null => exact ⟨[], lookupField_setField_self fs k _⟩
    | bool b => exact ⟨[], lookupField_setField_self fs k _⟩
    | num n => exact ⟨[], lookupField_setField_self fs k _⟩
    | str s => exact ⟨[], lookupField_setField_self fs k _⟩
    | obj fields => exact ⟨[], lookupField_setField_self fs k _⟩

theorem lookupField_coerce_ne (fs : List (String × Json)) (k k' : String)
    (h : k' ≠ k) :
    lookupField (coerceArrayField fs k) k' = lookupField fs k' := by
  unfold coerceArrayField
  cases hv : lookupField fs k with
  | none => exact lookupField_setField_ne fs k k' _ h
  | some v =>
    cases v <;> exact lookupField_setField_ne fs k k' _ h

theorem lookupField_vitals_ne (fs : List (String × Json)) (k' : String)
    (h : k' ≠ "vitalSigns") :
    lookupField (validateVitalSignsField fs) k' = lookupField fs k' := by
  unfold validateVitalSignsField
  cases hv : lookupField fs "vitalSigns" with
  | none => exact lookupField_setField_ne fs _ k' _ h
  | some v =>
    cases v with
    | arr elems => rfl
    | obj fields => exact lookupField_setField_ne fs _ k' _ h
    | null => exact lookupField_setField_ne fs _ k' _ h
    | bool b => exact lookupField_setField_ne fs _ k' _ h
    | num n => exact lookupField_setField_ne fs _ k' _ h
    | str s => exact lookupField_setField_ne fs _ k' _ h

/-! ### Claim C1 -/

/-- C1: the de-identification pass removes every key whose lowercase
form is in the deny-list at every nesting depth, keeps every other key
with its value processed recursively, and maps arrays element-wise,
preserving length and element order. -/
theorem c1_deidentification (j : Json) (fields : List (String × Json))
    (k : String) (v : Json) (hmem : (k, v) ∈ fields)
    (hkeep : isDeniedKey k = false) (elems : List Json) :
    denyFree (deIdentifyDataRecursive j) = true
    ∧ deIdentifyDataRecursive (Json.obj fields) = Json.obj (deIdFields fields)
    ∧ (k, deIdentifyDataRecursive v) ∈ deIdFields fields
    ∧ deIdentifyDataRecursive (Json.arr elems) = Json.arr (deIdList elems)
    ∧ (deIdList elems).length = elems.length
    ∧ (∀ i, (deIdList elems).get? i
        = (elems.get? i).map deIdentifyDataRecursive) := by
  refine ⟨denyFree_deIdentify j, by simp [deIdentifyDataRecursive], ?_,
    by simp [deIdentifyDataRecursive], ?_, ?_⟩
  · rw [deIdFields_eq_filterMap]
    exact List.mem_filterMap.mpr ⟨(k, v), hmem, by simp [hkeep]⟩
  · rw [deIdList_eq_map, List.length_map]
  · intro i
    rw [deIdList_eq_map, List.get?_map]

/-- Witness for C1 at a concrete object and array. -/
theorem c1_deidentification_witness :
    ((("age", Json.num 55) ∈ [("name", Json.str "Ann"), ("age", Json.num 55)])
      ∧ isDeniedKey "age" = false)
    ∧ (denyFree (deIdentifyDataRecursive
          (Json.obj [("name", Json.str "Ann"), ("age", Json.num 55)])) = true
      ∧ deIdentifyDataRecursive
            (Json.obj [("name", Json.str "Ann"), ("age", Json.num 55)])
          = Json.obj (deIdFields [("name", Json.str "Ann"), ("age", Json.num 55)])
      ∧ ("age", deIdentifyDataRecursive (Json.num 55))
          ∈ deIdFields [("name", Json.str "Ann"), ("age", Json.num 55)]
      ∧ deIdentifyDataRecursive (Json.arr [Json.null])
          = Json.arr (deIdList [Json.null])
      ∧ (deIdList [Json.null]).length = ([Json.null] : List Json).length
      ∧ ∀ i, (deIdList [Json.null]).get? i
          = (([Json.null] : List Json).get? i).map deIdentifyDataRecursive) :=
  ⟨⟨by simp, by decide⟩,
   c1_deidentification
     (Json.obj [("name", Json.str "Ann"), ("age", Json.num 55)])
     [("name", Json.str "Ann"), ("age", Json.num 55)] "age" (Json.num 55)
     (by simp) (by decide) [Json.null]⟩

/-! ### Claim C10 -/

/-- C10: the de-identification pass is idempotent: scrubbing an already
scrubbed value changes nothing. -/
theorem c10_deidentify_idempotent (j : Json) :
    deIdentifyDataRecursive (deIdentifyDataRecursive j)
      = deIdentifyDataRecursive j :=
  deIdentify_idempotent j

/-! ### Claim C3 -/

/-- C3 counterexample: the LLM text `null` parses to a falsy JSON value,
the validation block is skipped entirely, and the handler succeeds with
body `null`: the response carries no conditions array. -/
theorem c3_counterexample :
    (parseCcdServe true 2025
        (fun s => if s = "null" then some Json.null else none)
        (GeminiOutcome.text "null")
        { method := "POST", contentType := "application/xml",
          body := some "<ClinicalDocument/>" }).status = 200
    ∧ (parseCcdServe true 2025
        (fun s => if s = "null" then some Json.null else none)
        (GeminiOutcome.text "null")
        { method := "POST", contentType := "application/xml",
          body := some "<ClinicalDocument/>" }).body = Json.null
    ∧ fieldIsArray
        (parseCcdServe true 2025
          (fun s => if s = "null" then some Json.null else none)
          (GeminiOutcome.text "null")
          { method := "POST", contentType := "application/xml",
            body := some "<ClinicalDocument/>" }).body "conditions" = false :=
  ⟨rfl, rfl, rfl⟩

/-- C3 amended: whenever the parsed LLM output is a JSON object, the
post-validation succeeds and conditions, medications, allergies and
procedures are all arrays in the returned object.  (A falsy parsed
value such as JSON null skips the block and is returned as is, and a
JSON array is passed through, so the guarantee is limited to object
outputs.) -/
theorem c3_amended (currentYear : Int) (fs : List (String × Json)) :
    ∃ out, validateFinalData currentYear (Json.obj fs) = Except.ok out
      ∧ fieldIsArray out "conditions" = true
      ∧ fieldIsArray out "medications" = true
      ∧ fieldIsArray out "allergies" = true
      ∧ fieldIsArray out "procedures" = true := by
  refine ⟨Json.obj (validateVitalSignsField
      (coerceArrayField (coerceArrayField (coerceArrayField
        (coerceArrayField (validateDemographicsField currentYear fs)
          "conditions") "medications") "allergies") "procedures")),
    rfl, ?_, ?_, ?_, ?_⟩
  · unfold fieldIsArray
    simp only
    rw [lookupField_vitals_ne _ _ (by decide),
      lookupField_coerce_ne _ _ _ (by decide),
      lookupField_coerce_ne _ _ _ (by decide),
      lookupField_coerce_ne _ _ _ (by decide)]
    obtain ⟨items, hit⟩ :=
      lookupField_coerce_self (validateDemographicsField currentYear fs)
        "conditions"
    rw [hit]
  · unfold fieldIsArray
    simp only
    rw [lookupField_vitals_ne _ _ (by decide),
      lookupField_coerce_ne _ _ _ (by decide),
      lookupField_coerce_ne _ _ _ (by decide)]
    obtain ⟨items, hit⟩ :=
      lookupField_coerce_self
        (coerceArrayField (validateDemographicsField currentYear fs)
          "conditions") "medications"
    rw [hit]
  · unfold fieldIsArray
    simp only
    rw [lookupField_vitals_ne _ _ (by decide),
      lookupField_coerce_ne _ _ _ (by decide)]
    obtain ⟨items, hit⟩ :=
      lookupField_coerce_self
        (coerceArrayField (coerceArrayField
          (validateDemographicsField currentYear fs) "conditions")
          "medications") "allergies"
    rw [hit]
  · unfold fieldIsArray
    simp only
    rw [lookupField_vitals_ne _ _ (by decide)]
    obtain ⟨items, hit⟩ :=
      lookupField_coerce_self
        (coerceArrayField (coerceArrayField (coerceArrayField
          (validateDemographicsField currentYear fs) "conditions")
          "medications") "allergies") "procedures"
    rw [hit]

/-! ### Claim C4 -/

/-- C4: in the demographics validation, a numeric age outside [2,120]
is replaced by `currentYear - birthYear` when the birthDate field
carries a valid birth year (in the sense of `validBirthYear`) and by
null otherwise, while an age inside [2,120] is left unchanged. -/
theorem c4_age_validation (currentYear : Int) (demo : List (String × Json))
    (a : Int) (hage : lookupField demo "age" = some (Json.num a)) :
    ((a < 2 ∨ 120 < a) →
      lookupField (validateDemographics currentYear demo) "age"
        = some (match validBirthYear currentYear (lookupField demo "birthDate")
                with
                | some y => Json.num (currentYear - y)
                | none => Json.null))
    ∧ (2 ≤ a → a ≤ 120 →
      lookupField (validateDemographics currentYear demo) "age"
        = some (Json.num a)) := by
  have key : ∀ d : List (String × Json),
      lookupField d "age" = some (Json.num a) →
      ((a < 2 ∨ 120 < a) →
        lookupField (validateAge currentYear d) "age"
          = some (match validBirthYear currentYear (lookupField d "birthDate")
                  with
                  | some y => Json.num (currentYear - y)
                  | none => Json.null))
      ∧ (2 ≤ a → a ≤ 120 →
        lookupField (validateAge currentYear d) "age"
          = some (Json.num a)) := by
    intro d hd
    unfold validateAge
    rw [hd]
    simp only
    constructor
    · intro hout
      rw [if_pos (by omega : a < 0 ∨ a > 120 ∨ a < 2)]
      cases hv : validBirthYear currentYear (lookupField d "birthDate") with
      | some y =>
        simp only
        exact lookupField_setField_self d "age" _
      | none =>
        simp only
        exact lookupField_setField_self d "age" _
    · intro h1 h2
      rw [if_neg (by omega : ¬ (a < 0 ∨ a > 120 ∨ a < 2))]
      exact hd
  unfold validateDemographics
  set d5 := stripPlaceholderField (stripPlaceholderField (stripPlaceholderField
    (stripPlaceholderField (stripPlaceholderField demo "name") "gender")
    "address") "zipCode") "phone" with hd5def
  have h5 : lookupField d5 "age" = some (Json.num a) := by
    rw [hd5def, lookupField_strip_ne _ _ _ (by decide),
      lookupField_strip_ne _ _ _ (by decide),
      lookupField_strip_ne _ _ _ (by decide),
      lookupField_strip_ne _ _ _ (by decide),
      lookupField_strip_ne _ _ _ (by decide)]
    exact hage
  have hb : lookupField d5 "birthDate" = lookupField demo "birthDate" := by
    rw [hd5def, lookupField_strip_ne _ _ _ (by decide),
      lookupField_strip_ne _ _ _ (by decide),
      lookupField_strip_ne _ _ _ (by decide),
      lookupField_strip_ne _ _ _ (by decide),
      lookupField_strip_ne _ _ _ (by decide)]
  obtain ⟨ka, kb⟩ := key d5 h5
  rw [hb] at ka
  exact ⟨ka, kb⟩

/-- Witness for C4: an implausible age 150 with birth year 1980 is
replaced by 2025 - 1980 = 45, and a plausible age 40 is untouched. -/
theorem c4_age_validation_witness :
    (lookupField [("age", Json.num 150), ("birthDate", Json.str "1980-01-02")]
        "age" = some (Json.num 150)
      ∧ ((150 : Int) < 2 ∨ (120 : Int) < 150)
      ∧ lookupField
          (validateDemographics 2025
            [("age", Json.num 150), ("birthDate", Json.str "1980-01-02")])
          "age"
        = some (match validBirthYear 2025
                  (lookupField
                    [("age", Json.num 150),
                     ("birthDate", Json.str "1980-01-02")] "birthDate") with
                | some y => Json.num (2025 - y)
                | none => Json.null))
    ∧ (lookupField [("age", Json.num 40)] "age" = some (Json.num 40)
      ∧ lookupField (validateDemographics 2025 [("age", Json.num 40)]) "age"
          = some (Json.num 40)) :=
  ⟨⟨rfl, by omega,
    (c4_age_validation 2025
      [("age", Json.num 150), ("birthDate", Json.str "1980-01-02")] 150
      rfl).1 (by omega)⟩,
   ⟨rfl,
    (c4_age_validation 2025 [("age", Json.num 40)] 40 rfl).2
      (by omega) (by omega)⟩⟩

/-! ### Claim C2 -/

theorem errorResponse_status (st : Nat) (msg : String) :
    (errorResponse st msg).status = st := rfl

theorem hasErrorField_errorResponse (st : Nat) (msg : String) :
    hasErrorField (errorResponse st msg) = true := rfl

/-- C2: a non-OPTIONS request carrying no body payload receives a 400
response with an `error` field from each of the four stage handlers
(`none` models a missing or empty body: the runtime exposes no body
stream and `req.text()` yields the empty string).  The parse handler is
taken with its API key configured, since a missing key is reported as a
500 configuration error before the body is read, and the rank handler
does not even start without the key. -/
theorem c2_missing_body_400 (req : Request) (hbody : req.body = none)
    (hmethod : req.method ≠ "OPTIONS") (currentYear : Int) (apiKey2 : Bool)
    (jsP1 jsP2 jsP3 : String → Option Json) (g1 g2 g3 : GeminiOutcome)
    (decS : String → Option (ExtractedFacts × SearchFilters))
    (reg : RegistryOutcome) (decR : String → Option RankPayload) :
    ((parseCcdServe true currentYear jsP1 g1 req).status = 400
      ∧ hasErrorField (parseCcdServe true currentYear jsP1 g1 req) = true)
    ∧ ((extractFactsServe apiKey2 jsP2 g2 req).status = 400
      ∧ hasErrorField (extractFactsServe apiKey2 jsP2 g2 req) = true)
    ∧ ((searchTrialsServe decS reg req).status = 400
      ∧ hasErrorField (searchTrialsServe decS reg req) = true)
    ∧ ((rankSummarizeServe decR jsP3 g3 req).response.status = 400
      ∧ hasErrorField (rankSummarizeServe decR jsP3 g3 req).response
          = true) := by
  have hjt : jsTrim "" = "" := rfl
  refine ⟨⟨?_, ?_⟩, ⟨?_, ?_⟩, ⟨?_, ?_⟩, ⟨?_, ?_⟩⟩ <;>
    simp [parseCcdServe, extractFactsServe, searchTrialsServe,
      rankSummarizeServe, hbody, if_neg hmethod, hjt, errorResponse_status,
      hasErrorField_errorResponse]

/-- Witness for C2 on a concrete bodyless POST request. -/
theorem c2_missing_body_400_witness :
    (({ method := "POST", contentType := "", body := none } : Request).body
        = none
      ∧ ({ method := "POST", contentType := "", body := none } : Request).method
        ≠ "OPTIONS")
    ∧ (((parseCcdServe true 2025 (fun _ => none) GeminiOutcome.empty
          { method := "POST", contentType := "", body := none }).status = 400
      ∧ hasErrorField (parseCcdServe true 2025 (fun _ => none)
          GeminiOutcome.empty
          { method := "POST", contentType := "", body := none }) = true)
    ∧ ((extractFactsServe true (fun _ => none) GeminiOutcome.empty
          { method := "POST", contentType := "", body := none }).status = 400
      ∧ hasErrorField (extractFactsServe true (fun _ => none)
          GeminiOutcome.empty
          { method := "POST", contentType := "", body := none }) = true)
    ∧ ((searchTrialsServe (fun _ => none) (RegistryOutcome.fail 0)
          { method := "POST", contentType := "", body := none }).status = 400
      ∧ hasErrorField (searchTrialsServe (fun _ => none)
          (RegistryOutcome.fail 0)
          { method := "POST", contentType := "", body := none }) = true)
    ∧ ((rankSummarizeServe (fun _ => none) (fun _ => none)
          GeminiOutcome.empty
          { method := "POST", contentType := "", body := none
            }).response.status = 400
      ∧ hasErrorField (rankSummarizeServe (fun _ => none) (fun _ => none)
          GeminiOutcome.empty
          { method := "POST", contentType := "", body := none }).response
        = true)) :=
  ⟨⟨rfl, by decide⟩,
   c2_missing_body_400
     { method := "POST", contentType := "", body := none } rfl (by decide)
     2025 true (fun _ => none) (fun _ => none) (fun _ => none)
     GeminiOutcome.empty GeminiOutcome.empty GeminiOutcome.empty
     (fun _ => none) (RegistryOutcome.fail 0) (fun _ => none)⟩

/-! ### Claim C8 -/

/-- C8 counterexample: a decoded payload without a trials field makes
the handler fail with a 500 error response (the logging line throws on
`trials.length` before the guard), not the empty array with 200; it
still issues no outbound request. -/
theorem c8_counterexample :
    (rankSummarizeServe
        (fun _ => some { extractedFacts := Json.null, trials := none })
        (fun _ => none) GeminiOutcome.empty
        { method := "POST", contentType := "application/json",
          body := some "\x7b\x7d" }).response.status = 500
    ∧ hasErrorField
        (rankSummarizeServe
          (fun _ => some { extractedFacts := Json.null, trials := none })
          (fun _ => none) GeminiOutcome.empty
          { method := "POST", contentType := "application/json",
            body := some "\x7b\x7d" }).response = true
    ∧ (rankSummarizeServe
        (fun _ => some { extractedFacts := Json.null, trials := none })
        (fun _ => none) GeminiOutcome.empty
        { method := "POST", contentType := "application/json",
          body := some "\x7b\x7d" }).llmCalled = false :=
  ⟨rfl, rfl, rfl⟩

/-- C8 amended: an empty trials list short-circuits to 200 with the
empty JSON array and no outbound LLM request; an absent trials field
also issues no outbound request, but the handler returns a 500 error
response instead of the empty array. -/
theorem c8_empty_trials (req : Request) (raw : String)
    (decR : String → Option RankPayload) (jsParse : String → Option Json)
    (g : GeminiOutcome) (payload : RankPayload)
    (hmethod : req.method ≠ "OPTIONS") (hb : req.body = some raw)
    (hdec : decR raw = some payload) :
    (payload.trials = some [] →
      rankSummarizeServe decR jsParse g req
        = ⟨{ status := 200, body := Json.arr [] }, false⟩)
    ∧ (payload.trials = none →
      (rankSummarizeServe decR jsParse g req).response.status = 500
        ∧ hasErrorField (rankSummarizeServe decR jsParse g req).response = true
        ∧ (rankSummarizeServe decR jsParse g req).llmCalled = false) := by
  constructor
  · intro ht
    simp [rankSummarizeServe, if_neg hmethod, hb, hdec, ht]
  · intro ht
    refine ⟨?_, ?_, ?_⟩ <;>
      simp [rankSummarizeServe, if_neg hmethod, hb, hdec, ht,
        errorResponse_status, hasErrorField_errorResponse]

/-- Witness for the amended C8 on concrete payloads. -/
theorem c8_empty_trials_witness :
    (({ extractedFacts := Json.null, trials := some [] }
        : RankPayload).trials = some []
      ∧ rankSummarizeServe
          (fun _ => some { extractedFacts := Json.null, trials := some [] })
          (fun _ => none) GeminiOutcome.empty
          { method := "POST", contentType := "application/json",
            body := some "\x7b\x7d" }
        = ⟨{ status := 200, body := Json.arr [] }, false⟩)
    ∧ (({ extractedFacts := Json.null, trials := none }
        : RankPayload).trials = none
      ∧ ((rankSummarizeServe
            (fun _ => some { extractedFacts := Json.null, trials := none })
            (fun _ => none) GeminiOutcome.empty
            { method := "POST", contentType := "application/json",
              body := some "\x7b\x7d" }).response.status = 500
        ∧ hasErrorField (rankSummarizeServe
            (fun _ => some { extractedFacts := Json.null, trials := none })
            (fun _ => none) GeminiOutcome.empty
            { method := "POST", contentType := "application/json",
              body := some "\x7b\x7d" }).response = true
        ∧ (rankSummarizeServe
            (fun _ => some { extractedFacts := Json.null, trials := none })
            (fun _ => none) GeminiOutcome.empty
            { method := "POST", contentType := "application/json",
              body := some "\x7b\x7d" }).llmCalled = false)) :=
  ⟨⟨rfl,
    (c8_empty_trials
      { method := "POST", contentType := "application/json",
        body := some "\x7b\x7d" } "\x7b\x7d"
      (fun _ => some { extractedFacts := Json.null, trials := some [] })
      (fun _ => none) GeminiOutcome.empty
      { extractedFacts := Json.null, trials := some [] }
      (by decide) rfl rfl).1 rfl⟩,
   ⟨rfl,
    (c8_empty_trials
      { method := "POST", contentType := "application/json",
        body := some "\x7b\x7d" } "\x7b\x7d"
      (fun _ => some { extractedFacts := Json.null, trials := none })
      (fun _ => none) GeminiOutcome.empty
      { extractedFacts := Json.null, trials := none }
      (by decide) rfl rfl).2 rfl⟩⟩

/-! ### Claim C9 -/

/-- When the input is an object or array reference, the deep copy also
returns a reference to a freshly allocated cell. -/
theorem deepCopyHeap_fresh (fuel : Nat) (h : Heap) (a : Nat) (h' : Heap)
    (v' : HVal) (hrun : deepCopyHeap fuel h (.ref a) = some (h', v')) :
    ∃ b, v' = .ref b ∧ h.length ≤ b := by
  match fuel with
  | 0 => cases hrun
  | fuel + 1 =>
    simp only [deepCopyHeap] at hrun
    cases hc : h.get? a with
    | none => rw [hc] at hrun; cases hrun
    | some c =>
      rw [hc] at hrun
      cases c with
      | arrCell elems =>
        simp only at hrun
        cases hm : mapHeap (deepCopyHeap fuel) h elems with
        | none => rw [hm] at hrun; cases hrun
        | some p1 =>
          obtain ⟨h1, ys⟩ := p1
          rw [hm] at hrun
          simp only at hrun
          obtain ⟨rfl, rfl⟩ := Prod.mk.inj (Option.some.inj hrun)
          exact ⟨h1.length, rfl,
            (mapHeap_grows _ (deepCopyHeap_grows fuel) elems h h1 ys hm).1⟩
      | objCell fields =>
        simp only at hrun
        cases hm : copyFieldsHeap (deepCopyHeap fuel) h fields with
        | none => rw [hm] at hrun; cases hrun
        | some p1 =>
          obtain ⟨h1, gs⟩ := p1
          rw [hm] at hrun
          simp only at hrun
          obtain ⟨rfl, rfl⟩ := Prod.mk.inj (Option.some.inj hrun)
          exact ⟨h1.length, rfl,
            (copyFieldsHeap_grows _ (deepCopyHeap_grows fuel) fields h h1 gs
              hm).1⟩

/-- C9: on the heap model, `deIdentifyData` never mutates the caller's
input: every cell of the initial heap is unchanged in the final heap
(so the structure reachable from the input reference is identical
before and after the call), and for an object or array input the result
is a reference to a cell freshly allocated past the end of the initial
heap. -/
theorem c9_no_mutation (fuel : Nat) (h : Heap) (v : HVal) (h' : Heap)
    (v' : HVal) (hrun : deIdentifyDataHeap fuel h v = some (h', v')) :
    heapGrows h h'
    ∧ (∀ a, v = .ref a → ∃ b, v' = .ref b ∧ h.length ≤ b) := by
  unfold deIdentifyDataHeap at hrun
  cases hc : deepCopyHeap fuel h v with
  | none => rw [hc] at hrun; cases hrun
  | some p =>
    obtain ⟨h1, c⟩ := p
    rw [hc] at hrun
    simp only at hrun
    have g1 := deepCopyHeap_grows fuel h v h1 c hc
    have g2 := deIdRecHeap_grows fuel h1 c h' v' hrun
    refine ⟨heapGrows_trans g1 g2, ?_⟩
    intro a hv
    subst hv
    obtain ⟨b1, rfl, hb1⟩ := deepCopyHeap_fresh fuel h a h1 c hc
    obtain ⟨b2, rfl, hb2⟩ := deIdRecHeap_fresh fuel h1 b1 h' v' hrun
    exact ⟨b2, rfl, le_trans g1.1 hb2⟩

/-- Witness for C9: a concrete run over a one-object heap, checking the
original cell survives unchanged and the result is the fresh cell 2. -/
theorem c9_no_mutation_witness :
    deIdentifyDataHeap 2
        [Cell.objCell [("name", HVal.str "Ann"), ("age", HVal.num 7)]]
        (HVal.ref 0)
      = some ([Cell.objCell [("name", HVal.str "Ann"), ("age", HVal.num 7)],
               Cell.objCell [("name", HVal.str "Ann"), ("age", HVal.num 7)],
               Cell.objCell [("age", HVal.num 7)]], HVal.ref 2)
    ∧ (heapGrows
        [Cell.objCell [("name", HVal.str "Ann"), ("age", HVal.num 7)]]
        [Cell.objCell [("name", HVal.str "Ann"), ("age", HVal.num 7)],
         Cell.objCell [("name", HVal.str "Ann"), ("age", HVal.num 7)],
         Cell.objCell [("age", HVal.num 7)]]
      ∧ ∀ a, HVal.ref 0 = HVal.ref a →
          ∃ b, HVal.ref 2 = HVal.ref b
            ∧ List.length
                [Cell.objCell [("name", HVal.str "Ann"), ("age", HVal.num 7)]]
              ≤ b) := by
  have hrun : deIdentifyDataHeap 2
      [Cell.objCell [("name", HVal.str "Ann"), ("age", HVal.num 7)]]
      (HVal.ref 0)
    = some ([Cell.objCell [("name", HVal.str "Ann"), ("age", HVal.num 7)],
             Cell.objCell [("name", HVal.str "Ann"), ("age", HVal.num 7)],
             Cell.objCell [("age", HVal.num 7)]], HVal.ref 2) := by decide
  exact ⟨hrun, c9_no_mutation 2 _ _ _ _ hrun⟩

end TrialMatch
